import Mathlib

/-!
Shallow embedding of `src/iot_driver_copilot/的v分·/driver.rs`, a small
actix-web HTTP driver over an in-memory CSV telemetry buffer, together
with proofs of the behavioural properties stated in its specification.

Modelling conventions:
* `VecDeque<Vec<String>>` becomes `List (List String)`, oldest row first;
  `push_back` is append of a singleton at the tail, `pop_front` is `tail`,
  `back()` is `getLast?`.
* JSON values (`serde_json::Value`) become the inductive `Json`; numbers
  are carried as rationals, which model every `f64` payload value exactly.
* Rust two-decimal fixed formatting of an `f64` (rounding ties to even)
  becomes `format2` over the rational carried by the JSON number.
* Each HTTP handler becomes an explicit state transformer on the buffer
  state, returning the (possibly unchanged) state and the response; the
  mutex only serialises access in the source, so it has no residue here.
-/

namespace Driver

/-- Model of a `serde_json::Value`: JSON values, with numbers as rationals. -/
inductive Json where
  | null : Json
  | bool (b : Bool) : Json
  | num (q : ℚ) : Json
  | str (s : String) : Json
  | arr (elems : List Json) : Json
  | obj (fields : List (String × Json)) : Json

/-- Model of `serde_json::Value::get(key)`: key lookup on an object,
`None` on every other variant. -/
def Json.get (j : Json) (key : String) : Option Json :=
  match j with
  | .obj fields => (fields.find? (fun kv => kv.1 = key)).map (fun kv => kv.2)
  | _ => none

/-- Model of `serde_json::Value::as_f64`: the carried number, `None` on
non-numeric variants. -/
def Json.as_f64 (j : Json) : Option ℚ :=
  match j with
  | .num q => some q
  | _ => none

/-- Static device metadata record (`struct DeviceInfo`). -/
structure DeviceInfo where
  device_name : String
  device_model : String
  manufacturer : String
  device_type : String
  deriving DecidableEq, Repr

/-- The CSV telemetry buffer (`struct CsvData`): fixed headers and the
ordered rows, oldest first. -/
structure CsvData where
  headers : List String
  rows : List (List String)
  deriving DecidableEq, Repr

/-- Model of `CsvData::latest_csv`: the header line, then — when the buffer
is nonempty — the last row joined by commas, with no trailing newline. -/
def CsvData.latest_csv (c : CsvData) : String :=
  let csv := String.intercalate "," c.headers ++ "\n"
  match c.rows.getLast? with
  | some row => csv ++ String.intercalate "," row
  | none => csv

/-- The append-with-eviction step performed inline by the `cmd` handler:
`rows.push_back(row); if rows.len() > 10 then rows.pop_front()`. -/
def CsvData.append (c : CsvData) (row : List String) : CsvData :=
  let rows := c.rows ++ [row]
  { c with rows := if rows.length > 10 then rows.tail else rows }

/-- Incoming command payload (`struct CommandRequest`). -/
structure CommandRequest where
  command : String
  params : Option Json

/-- An HTTP response whose body is JSON (used by `/info` and `/cmd`). -/
structure JsonResponse where
  status : Nat
  body : Json

/-- An HTTP response whose body is CSV text (used by `/data` and `/stream`). -/
structure CsvResponse where
  status : Nat
  contentType : String
  cacheControl : Option String
  body : String
  deriving DecidableEq, Repr

/-- The success body `serde_json::json!` built by the `cmd` handler. -/
def successBody : Json := .obj [("status", .str "success")]

/-- The error body built by the `cmd` handler for a given message. -/
def errorBody (msg : String) : Json :=
  .obj [("status", .str "error"), ("message", .str msg)]

/-- Rounding of a rational to the nearest integer, ties going to the even
integer, as Rust float formatting does. -/
def roundTiesEven (q : ℚ) : ℤ :=
  let f := ⌊q⌋
  if q - f < 1/2 then f
  else if 1/2 < q - f then f + 1
  else if f % 2 = 0 then f else f + 1

/-- Two-digit zero-padded rendering of a remainder below 100. -/
def pad2 (r : ℕ) : String :=
  (if r < 10 then "0" else "") ++ toString r

/-- Model of Rust two-decimal fixed formatting of a float value, here over
the rational the JSON number carries. -/
def format2 (q : ℚ) : String :=
  let n := (roundTiesEven (q * 100)).natAbs
  let sign := if q < 0 then "-" else ""
  sign ++ toString (n / 100) ++ "." ++ pad2 (n % 100)

/-- Model of the `POST /cmd` handler (`async fn cmd`): dispatch on the
command string; for `set_temp` with a numeric `params.temperature`, build
the row and append it; otherwise answer 400 without touching the buffer. -/
def cmd (now : ℕ) (c : CsvData) (payload : CommandRequest) : CsvData × JsonResponse :=
  match payload.command with
  | "set_temp" =>
    match payload.params with
    | some params =>
      match (params.get "temperature").bind Json.as_f64 with
      | some temp =>
        let row := [toString now, format2 temp, "ok"]
        (c.append row, ⟨200, successBody⟩)
      | none => (c, ⟨400, errorBody "Missing temperature parameter"⟩)
    | none => (c, ⟨400, errorBody "Missing temperature parameter"⟩)
  | _ => (c, ⟨400, errorBody "Unknown command"⟩)

/-- The CSV text assembled by the `stream_csv` handler: the header line,
then a `for` loop appending each row followed by a newline. -/
def CsvData.all_csv (c : CsvData) : String :=
  c.rows.foldl (fun acc row => acc ++ String.intercalate "," row ++ "\n")
    (String.intercalate "," c.headers ++ "\n")

/-- Model of the `GET /stream` handler (`async fn stream_csv`): reads the
buffer and returns `Ok` with the full CSV, `text/csv`, and `no-cache`. -/
def stream_csv (c : CsvData) : CsvData × Except String CsvResponse :=
  (c, .ok ⟨200, "text/csv", some "no-cache", c.all_csv⟩)

/-- Model of the `GET /data` handler (`async fn data`): reads the buffer
and returns the latest-row CSV with content type `text/csv`. -/
def data (c : CsvData) : CsvData × CsvResponse :=
  (c, ⟨200, "text/csv", none, c.latest_csv⟩)

/-- JSON serialization of `DeviceInfo`, in declaration field order as
serde produces it. -/
def infoJson (d : DeviceInfo) : Json :=
  .obj [("device_name", .str d.device_name),
        ("device_model", .str d.device_model),
        ("manufacturer", .str d.manufacturer),
        ("device_type", .str d.device_type)]

/-- The fixed device metadata constructed once in `main`. -/
def device_info : DeviceInfo :=
  { device_name := "的v分·"
    device_model := "个人"
    manufacturer := "拰发·"
    device_type := " 为服务" }

/-- The process-wide state (`struct AppState`), with the mutex erased. -/
structure AppState where
  device_info : DeviceInfo
  csv_data : CsvData

/-- Model of the `GET /info` handler (`async fn info`): serializes the
static device metadata, ignoring the telemetry buffer. -/
def info (st : AppState) : AppState × JsonResponse :=
  (st, ⟨200, infoJson st.device_info⟩)

/-- The buffer state built at startup in `main`: the three fixed headers
and the single seed row stamped with the current Unix time. -/
def initCsvData (now : ℕ) : CsvData :=
  { headers := ["timestamp", "temperature", "status"]
    rows := [[toString now, "25.0", "ok"]] }

/-- Buffer states reachable from startup: the seeded initial state, closed
under the `cmd` handler (the only mutator; the read handlers return the
state unchanged). -/
inductive Reachable : CsvData → Prop where
  | init (now : ℕ) : Reachable (initCsvData now)
  | step (s : CsvData) (now : ℕ) (p : CommandRequest) :
      Reachable s → Reachable (cmd now s p).1

/-! ### Helper lemmas about the append-with-eviction step and the handler -/

lemma append_headers (c : CsvData) (row : List String) :
    (c.append row).headers = c.headers := by
  simp only [CsvData.append]

lemma append_rows (c : CsvData) (row : List String) :
    (c.append row).rows =
      if (c.rows ++ [row]).length > 10 then (c.rows ++ [row]).tail
      else c.rows ++ [row] := rfl

lemma append_length_le (c : CsvData) (row : List String)
    (h : c.rows.length ≤ 10) : (c.append row).rows.length ≤ 10 := by
  rw [append_rows]
  split
  · next hgt =>
    simp only [List.length_tail, List.length_append, List.length_singleton] at hgt ⊢
    omega
  · next hgt =>
    simp only [List.length_append, List.length_singleton] at hgt ⊢
    omega

lemma append_length_pos (c : CsvData) (row : List String) :
    1 ≤ (c.append row).rows.length := by
  rw [append_rows]
  split
  · next hgt =>
    simp only [List.length_tail, List.length_append, List.length_singleton] at hgt ⊢
    omega
  · simp

lemma append_of_full (c : CsvData) (row : List String)
    (h : c.rows.length = 10) :
    (c.append row).rows = c.rows.tail ++ [row] := by
  rw [append_rows]
  rw [if_pos (by simp [h])]
  cases hr : c.rows with
  | nil => simp [hr] at h
  | cons a l => simp

lemma append_getLast (c : CsvData) (row : List String) :
    (c.append row).rows.getLast? = some row := by
  rw [append_rows]
  split
  · next hgt =>
    cases hr : c.rows with
    | nil => simp [hr] at hgt
    | cons a l => simp [List.getLast?_append]
  · simp [List.getLast?_append]

lemma append_forall {P : List String → Prop} (c : CsvData) (row : List String)
    (h : ∀ r ∈ c.rows, P r) (hrow : P row) :
    ∀ r ∈ (c.append row).rows, P r := by
  rw [append_rows]
  intro r hr
  have hmem : r ∈ c.rows ++ [row] := by
    split at hr
    · exact List.mem_of_mem_tail hr
    · exact hr
  rcases List.mem_append.mp hmem with h1 | h1
  · exact h r h1
  · rcases List.mem_singleton.mp h1 with rfl
    exact hrow

/-- Case analysis on the state component of the `cmd` handler: the buffer
is left unchanged, or exactly one row of the fixed shape is appended. -/
lemma cmd_state_cases (now : ℕ) (c : CsvData) (p : CommandRequest) :
    (cmd now c p).1 = c ∨
      ∃ q : ℚ, (cmd now c p).1 = c.append [toString now, format2 q, "ok"] := by
  rcases p with ⟨command, params⟩
  by_cases hc : command = "set_temp"
  · subst hc
    cases params with
    | none => left; rfl
    | some ps =>
      cases hq : (ps.get "temperature").bind Json.as_f64 with
      | none => left; simp [cmd, hq]
      | some q => right; exact ⟨q, by simp [cmd, hq]⟩
  · left
    unfold cmd
    split
    · next h => exact absurd h hc
    · rfl

lemma format2_half_example : format2 (43/2 : ℚ) = "21.50" := by
  have h : roundTiesEven ((43/2 : ℚ) * 100) = 2150 := by
    simp only [roundTiesEven]
    norm_num
  have hneg : ¬ ((43/2 : ℚ) < 0) := by norm_num
  simp only [format2, h, hneg, if_false]
  rfl

/-! ### Claim theorems -/

/-- C1: after every append performed by the `set_temp` handler the buffer
keeps `rows.length ≤ 10`; on overflow the evicted row is the oldest (head)
row; and appending 15 rows sequentially to an empty buffer leaves exactly
the last 10 appended rows, in their original relative order. -/
theorem capacity_fifo :
    (∀ (now : ℕ) (c : CsvData) (p : CommandRequest), c.rows.length ≤ 10 →
        (cmd now c p).1.rows.length ≤ 10) ∧
    (∀ (c : CsvData) (row : List String), c.rows.length = 10 →
        (c.append row).rows = c.rows.tail ++ [row]) ∧
    ((List.foldl CsvData.append ⟨["timestamp", "temperature", "status"], []⟩
        ((List.range 15).map (fun i => [toString i]))).rows =
      ((List.range 15).map (fun i => [toString i])).drop 5) := by
  refine ⟨?_, ?_, ?_⟩
  · intro now c p h
    rcases cmd_state_cases now c p with heq | ⟨q, heq⟩
    · rw [heq]; exact h
    · rw [heq]; exact append_length_le c _ h
  · exact append_of_full
  · rfl

/-- C1 witness: the capacity bound applied to a concrete handler call. -/
theorem capacity_fifo_witness :
    (cmd 5 (initCsvData 0)
        ⟨"set_temp", some (.obj [("temperature", .num 21)])⟩).1.rows.length ≤ 10 :=
  capacity_fifo.1 5 (initCsvData 0) _ (by simp [initCsvData])

/-- C2: a `set_temp` command with a numeric `params.temperature` builds the
row `[now, format2 temperature, "ok"]`, appends exactly that one row, and
answers 200 with a success body; 21.5 is rendered as "21.50". -/
theorem cmd_set_temp_success (now : ℕ) (c : CsvData) (ps : Json) (q : ℚ)
    (h : (ps.get "temperature").bind Json.as_f64 = some q) :
    cmd now c ⟨"set_temp", some ps⟩ =
      (c.append [toString now, format2 q, "ok"], ⟨200, successBody⟩) ∧
    format2 (43/2 : ℚ) = "21.50" := by
  refine ⟨?_, format2_half_example⟩
  simp [cmd, h]

/-- C2 witness: the success path at a concrete request. -/
theorem cmd_set_temp_success_witness :
    (cmd 100 (initCsvData 0) ⟨"set_temp", some (.obj [("temperature", .num (43/2))])⟩ =
      ((initCsvData 0).append [toString 100, format2 (43/2 : ℚ), "ok"],
        ⟨200, successBody⟩)) ∧
    format2 (43/2 : ℚ) = "21.50" :=
  cmd_set_temp_success 100 (initCsvData 0) (.obj [("temperature", .num (43/2))])
    (43/2) rfl

/-- C3: a `set_temp` command with params absent, lacking `temperature`, or
carrying a non-numeric `temperature` answers 400 with the message
"Missing temperature parameter" and leaves the buffer unchanged. -/
theorem cmd_set_temp_missing (now : ℕ) (c : CsvData) (p : CommandRequest)
    (hc : p.command = "set_temp")
    (h : p.params.bind (fun ps => (ps.get "temperature").bind Json.as_f64) = none) :
    cmd now c p = (c, ⟨400, errorBody "Missing temperature parameter"⟩) := by
  rcases p with ⟨command, params⟩
  simp only at hc
  subst hc
  cases params with
  | none => rfl
  | some ps =>
    cases hq : (ps.get "temperature").bind Json.as_f64 with
    | none => simp [cmd, hq]
    | some q => simp [hq] at h

/-- C3 witness: a concrete `set_temp` request with an empty params object. -/
theorem cmd_set_temp_missing_witness :
    cmd 1 (initCsvData 0) ⟨"set_temp", some (.obj [])⟩ =
      (initCsvData 0, ⟨400, errorBody "Missing temperature parameter"⟩) :=
  cmd_set_temp_missing 1 (initCsvData 0) ⟨"set_temp", some (.obj [])⟩ rfl rfl

/-- C4: any command other than `set_temp` answers 400 with the message
"Unknown command" and leaves the buffer unchanged. -/
theorem cmd_unknown (now : ℕ) (c : CsvData) (p : CommandRequest)
    (hc : p.command ≠ "set_temp") :
    cmd now c p = (c, ⟨400, errorBody "Unknown command"⟩) := by
  rcases p with ⟨command, params⟩
  simp only at hc
  unfold cmd
  split
  · next h => exact absurd h hc
  · rfl

/-- C4 witness: a concrete `reboot` request. -/
theorem cmd_unknown_witness :
    cmd 0 (initCsvData 0) ⟨"reboot", none⟩ =
      (initCsvData 0, ⟨400, errorBody "Unknown command"⟩) :=
  cmd_unknown 0 (initCsvData 0) ⟨"reboot", none⟩ (by decide)

/-- Specification-side rendering of the latest-row CSV: the header line, a
newline, and — when a last row exists — its fields joined by commas with no
trailing newline; the header line alone when the buffer is empty. -/
def latestCsvSpec (c : CsvData) : String :=
  match c.rows.getLast? with
  | none => String.intercalate "," c.headers ++ "\n"
  | some row => String.intercalate "," c.headers ++ "\n" ++ String.intercalate "," row

/-- C5: `latest_csv` returns the header line, a newline and the last row
joined by commas with no trailing newline (header line only on an empty
buffer), and the last row is always the most recently appended one. -/
theorem latest_csv_correct :
    (∀ c : CsvData, c.latest_csv = latestCsvSpec c) ∧
    (∀ (c : CsvData) (row : List String),
        (c.append row).rows.getLast? = some row) := by
  constructor
  · intro c
    simp only [CsvData.latest_csv, latestCsvSpec]
    cases c.rows.getLast? <;> rfl
  · exact append_getLast

/-- Specification-side rendering of the row block of the full CSV: one line
per row, oldest first, each line terminated by a newline. -/
def rowsCsvSpec : List (List String) → String
  | [] => ""
  | row :: rest => String.intercalate "," row ++ "\n" ++ rowsCsvSpec rest

/-- Specification-side rendering of the full CSV: the header line followed
by the row block. -/
def allCsvSpec (c : CsvData) : String :=
  String.intercalate "," c.headers ++ "\n" ++ rowsCsvSpec c.rows

lemma foldl_rows_eq (rows : List (List String)) (init : String) :
    rows.foldl (fun acc row => acc ++ String.intercalate "," row ++ "\n") init
      = init ++ rowsCsvSpec rows := by
  induction rows generalizing init with
  | nil => simp [rowsCsvSpec]
  | cons row rest ih =>
    rw [List.foldl_cons, ih, rowsCsvSpec]
    simp only [String.append_assoc]

/-- C6: the `stream_csv` handler never fails and returns status 200 with
content type `text/csv`, a `no-cache` cache-control directive, and the
header line followed by one newline-terminated line per row, oldest to
newest. -/
theorem stream_csv_correct (c : CsvData) :
    stream_csv c =
      (c, .ok ⟨200, "text/csv", some "no-cache", allCsvSpec c⟩) := by
  simp only [stream_csv, CsvData.all_csv, allCsvSpec, foldl_rows_eq]

/-- C7: in every reachable buffer state the headers are the three fixed
field names and every row has exactly as many fields as there are headers. -/
theorem arity_invariant (c : CsvData) (h : Reachable c) :
    c.headers = ["timestamp", "temperature", "status"] ∧
    ∀ row ∈ c.rows, row.length = c.headers.length := by
  induction h with
  | init now =>
    refine ⟨rfl, ?_⟩
    intro row hr
    simp only [initCsvData, List.mem_singleton] at hr
    subst hr
    rfl
  | step s now p hs ih =>
    rcases cmd_state_cases now s p with heq | ⟨q, heq⟩
    · rw [heq]; exact ih
    · rw [heq, append_headers]
      refine ⟨ih.1, ?_⟩
      exact append_forall s _ ih.2 (by simp [ih.1])

/-- C7 witness: the invariant at the concrete startup state. -/
theorem arity_invariant_witness :
    (initCsvData 7).headers = ["timestamp", "temperature", "status"] ∧
    ∀ row ∈ (initCsvData 7).rows, row.length = (initCsvData 7).headers.length :=
  arity_invariant (initCsvData 7) (Reachable.init 7)

/-- C8: the `info` handler returns status 200 with the fixed device
metadata serialized with its four fields, independently of the buffer
contents and identically across requests. -/
theorem info_stable :
    (∀ c : CsvData, (info ⟨device_info, c⟩).2 =
        ⟨200, Json.obj [("device_name", .str "的v分·"),
                        ("device_model", .str "个人"),
                        ("manufacturer", .str "拰发·"),
                        ("device_type", .str " 为服务")]⟩) ∧
    (∀ c c' : CsvData, (info ⟨device_info, c⟩).2 = (info ⟨device_info, c'⟩).2) :=
  ⟨fun _ => rfl, fun _ _ => rfl⟩

/-- C9: the read handlers leave the buffer state unchanged, so reading
twice with no intervening append yields identical output both times. -/
theorem reads_idempotent (c : CsvData) :
    ((data c).1 = c ∧ (data ((data c).1)).2 = (data c).2) ∧
    ((stream_csv c).1 = c ∧
      (stream_csv ((stream_csv c).1)).2 = (stream_csv c).2) :=
  ⟨⟨rfl, rfl⟩, ⟨rfl, rfl⟩⟩

/-- C10: every reachable buffer state is nonempty — the seed row is there
at startup and append never empties the buffer — so `latest_csv` always
carries a data row after the header line. -/
theorem buffer_nonempty (c : CsvData) (h : Reachable c) :
    1 ≤ c.rows.length ∧
    ∃ row, c.rows.getLast? = some row ∧
      c.latest_csv =
        String.intercalate "," c.headers ++ "\n" ++ String.intercalate "," row := by
  have hlen : 1 ≤ c.rows.length := by
    induction h with
    | init now => simp [initCsvData]
    | step s now p hs ih =>
      rcases cmd_state_cases now s p with heq | ⟨q, heq⟩
      · rw [heq]; exact ih
      · rw [heq]; exact append_length_pos s _
  refine ⟨hlen, ?_⟩
  have hne : c.rows ≠ [] := by
    intro hn
    rw [hn] at hlen
    simp at hlen
  obtain ⟨row, hrow⟩ := Option.isSome_iff_exists.mp (List.getLast?_isSome.mpr hne)
  exact ⟨row, hrow, by simp [CsvData.latest_csv, hrow]⟩

/-- C10 witness: nonemptiness at the concrete startup state. -/
theorem buffer_nonempty_witness :
    1 ≤ (initCsvData 3).rows.length ∧
    ∃ row, (initCsvData 3).rows.getLast? = some row ∧
      (initCsvData 3).latest_csv =
        String.intercalate "," (initCsvData 3).headers ++ "\n" ++
          String.intercalate "," row :=
  buffer_nonempty (initCsvData 3) (Reachable.init 3)

end Driver
